import Mathlib

/-!
Verification of the SQL construction engine of `clickorm`
(`src/utils/sql-builder.ts`): identifier validation/escaping, the
parameter encoder with ClickHouse type inference, the mutable query
assembler (modelled by explicit state passing), the one-shot statement
factories, and the WHERE condition compiler (modelled from the spec,
since its source file is not part of the provided sources).
-/

namespace ClickORM

/-- The single injection-class error of the library (`SQLInjectionError`
in `src/core/errors.js`): a message plus, when the throw site supplies
one, the offending value. -/
structure SQLInjectionError where
  message : String
  value : Option String := none
deriving DecidableEq, Repr

/-- Model of the JavaScript runtime values that can reach `param`.
`vNull`/`vUndefined` model `null`/`undefined`; `vNum` models a JS
number as a rational (integer iff its denominator is 1, matching
`Number.isInteger`); `vDate ms` models a `Date` holding `getTime() = ms`
milliseconds; `vObj json` models a plain (non-array, non-Date, non-null)
object by its `JSON.stringify` text, which is the only way the code
observes it. -/
inductive JSValue where
  | vNull
  | vUndefined
  | vBool (b : Bool)
  | vNum (q : Rat)
  | vBigInt (n : Int)
  | vStr (s : String)
  | vDate (ms : Int)
  | vArr (elems : List JSValue)
  | vObj (json : String)

/-- First character class of an identifier token: `[A-Za-z_]`
(`Char.isAlpha` is exactly the ASCII ranges the regex uses). -/
def isIdentStart (c : Char) : Bool := c.isAlpha || c = '_'

/-- Remaining character class of an identifier token: `[A-Za-z0-9_]`. -/
def isIdentChar (c : Char) : Bool := c.isAlphanum || c = '_'

/-- A token matches `[A-Za-z_][A-Za-z0-9_]*`. -/
def matchToken : List Char → Bool
  | [] => false
  | c :: rest => isIdentStart c && rest.all isIdentChar

/-- `String.prototype.split('.')` on the character list: one or more
segments, empty segments kept (`"" → [""]`, `"a." → ["a", ""]`). -/
def splitOnDot : List Char → List (List Char)
  | [] => [[]]
  | c :: rest =>
      if c = '.' then [] :: splitOnDot rest
      else
        match splitOnDot rest with
        | s :: ss => (c :: s) :: ss
        | [] => [[c]]

/-- The test of the source regex
`^[a-zA-Z_][a-zA-Z0-9_]*(\.[a-zA-Z_][a-zA-Z0-9_]*)*$` from
`validateIdentifier`.  A string matches that anchored pattern exactly
when splitting it on `.` yields tokens (always one or more) that each
match the token pattern: tokens cannot contain `.`, so the split of a
matching string recovers its token sequence, and conversely a string
whose split tokens all match is the `.`-interleaving the pattern
describes (a zero-length segment fails `matchToken`). -/
def regexTest (s : String) : Bool :=
  (splitOnDot s.data).all matchToken

/-- `validateIdentifier` (sql-builder.ts:306-314): passes the regex test
or throws `SQLInjectionError` carrying the offending identifier. -/
def validateIdentifier (ident : String) : Except SQLInjectionError Unit :=
  if regexTest ident then .ok ()
  else .error ⟨"Invalid identifier: " ++ ident ++
      ". Identifiers must start with a letter or underscore and contain only alphanumeric characters, underscores, or dots.",
      some ident⟩

/-- `part.replace(/`/g, '``')`: double every backtick character. -/
def doubleBackticks : List Char → List Char
  | [] => []
  | c :: rest =>
      if c = '`' then '`' :: '`' :: doubleBackticks rest
      else c :: doubleBackticks rest

/-- `Array.prototype.join(sep)`. -/
def joinWith (sep : String) : List String → String
  | [] => ""
  | [x] => x
  | x :: xs => x ++ sep ++ joinWith sep xs

/-- `Array.prototype.join(' ')` over the parts list. -/
def joinParts : List String → String := joinWith " "

/-- `escapeIdentifier` (sql-builder.ts:319-323): split on dots, wrap each
part in backticks doubling any interior backtick, join with `.`. -/
def escapeIdentifier (ident : String) : String :=
  joinWith "."
    ((splitOnDot ident.data).map (fun part => "`" ++ String.mk (doubleBackticks part) ++ "`"))

/-- `identifier` (sql-builder.ts:64-68): validate, then escape. -/
def identifier (name : String) : Except SQLInjectionError String :=
  match validateIdentifier name with
  | .error e => .error e
  | .ok _ => .ok (escapeIdentifier name)

/-- `identifiers` (sql-builder.ts:73-75): `names.map(n => identifier(n))`,
the first failure propagating as the thrown error does. -/
def identifiers : List String → Except SQLInjectionError (List String)
  | [] => .ok []
  | n :: ns =>
    match identifier n with
    | .error e => .error e
    | .ok q =>
      match identifiers ns with
      | .error e => .error e
      | .ok qs => .ok (q :: qs)

/-- Wire conversion performed by `param` (sql-builder.ts:33-47) before the
value is pushed: Dates become floor(ms/1000) seconds, booleans become
1/0, plain objects become their JSON text; all else is unchanged. -/
def convertParamValue : JSValue → JSValue
  | .vDate ms => .vNum ((Int.fdiv ms 1000 : Int) : Rat)
  | .vBool b => .vNum (if b then 1 else 0)
  | .vObj json => .vStr json
  | v => v

/-- `inferClickHouseType` (sql-builder.ts:327-364): boolean/Date decided
from the original value first, then null/undefined, then the `typeof`
switch on the (converted) value. -/
def inferClickHouseType (value : JSValue) (originalValue : JSValue) : String :=
  match originalValue with
  | .vBool _ => "UInt8"
  | .vDate _ => "DateTime"
  | _ =>
    match value with
    | .vNull => "Nullable(String)"
    | .vUndefined => "Nullable(String)"
    | .vNum q => if q.den = 1 then "Int32" else "Float64"
    | .vBigInt _ => "Int64"
    | .vStr _ => "String"
    | .vBool _ => "UInt8"
    | .vDate _ => "DateTime"
    | .vArr _ => "Array(String)"
    | .vObj _ => "String"

/-- The assembler state of class `SQLBuilder` (sql-builder.ts:12-15). -/
structure SQLBuilder where
  parts : List String := []
  parameters : List JSValue := []
  paramCounter : Nat := 0

/-- A freshly constructed builder. -/
def SQLBuilder.empty : SQLBuilder := {}

/-- `String.prototype.includes(pat)` on the underlying character list:
some suffix of `l` has `pat` as a prefix. -/
def hasSubList : List Char → List Char → Bool
  | [], pat => pat.isPrefixOf []
  | c :: rest, pat => pat.isPrefixOf (c :: rest) || hasSubList rest pat

/-- `s.includes(pat)` for strings. -/
def containsSubstr (s pat : String) : Bool := hasSubList s.data pat.data

/-- `raw` (sql-builder.ts:20-23). -/
def SQLBuilder.raw (b : SQLBuilder) (sql : String) : SQLBuilder :=
  { b with parts := b.parts ++ [sql] }

/-- `param` (sql-builder.ts:28-52): push the converted wire value, emit
`{paramN:Tag}` with the pre-increment counter and the tag inferred from
the converted value together with the original one. -/
def SQLBuilder.param (b : SQLBuilder) (value : JSValue) : String × SQLBuilder :=
  let originalValue := value
  let paramValue := convertParamValue value
  ("\x7bparam" ++ toString b.paramCounter ++ ":" ++
      inferClickHouseType paramValue originalValue ++ "\x7d",
   { b with parameters := b.parameters ++ [paramValue],
            paramCounter := b.paramCounter + 1 })

/-- `params` (sql-builder.ts:57-59): `values.map(v => this.param(v))`. -/
def SQLBuilder.params (b : SQLBuilder) : List JSValue → List String × SQLBuilder
  | [] => ([], b)
  | v :: vs =>
      let (ph, b₁) := b.param v
      let (phs, b₂) := b₁.params vs
      (ph :: phs, b₂)

/-- `build` (sql-builder.ts:272-277). -/
def SQLBuilder.build (b : SQLBuilder) : String × List JSValue :=
  (joinParts b.parts, b.parameters)

/-- `toSQL` (sql-builder.ts:282-284). -/
def SQLBuilder.toSQL (b : SQLBuilder) : String := joinParts b.parts

/-- `getParams` (sql-builder.ts:289-291): a copy of the parameter list
(copying is identity in the functional model). -/
def SQLBuilder.getParams (b : SQLBuilder) : List JSValue := b.parameters

/-- `reset` (sql-builder.ts:296-301): clears parts, parameters and the
counter. -/
def SQLBuilder.reset (_b : SQLBuilder) : SQLBuilder := {}

/-- `select` (sql-builder.ts:80-94): reject an empty field list, pass a
bare `*` through unescaped when present, otherwise join the escaped
identifiers with commas. -/
def SQLBuilder.select (b : SQLBuilder) (fields : List String) :
    Except SQLInjectionError SQLBuilder :=
  if fields.length = 0 then .error ⟨"SELECT fields cannot be empty", none⟩
  else if fields.contains "*" then
    .ok { b with parts := b.parts ++ ["SELECT", "*"] }
  else
    match identifiers fields with
    | .error e => .error e
    | .ok qs => .ok { b with parts := b.parts ++ ["SELECT", joinWith ", " qs] }

/-- `from` (sql-builder.ts:99-109); `from` is a Lean keyword, hence the
`C` suffix.  A JS empty-string alias is falsy, so it emits no `AS`. -/
def SQLBuilder.fromC (b : SQLBuilder) (table : String) (aliasName : Option String := none) :
    Except SQLInjectionError SQLBuilder :=
  match identifier table with
  | .error e => .error e
  | .ok qt =>
    match aliasName with
    | none => .ok { b with parts := b.parts ++ ["FROM", qt] }
    | some a =>
      if a = "" then .ok { b with parts := b.parts ++ ["FROM", qt] }
      else
        match identifier a with
        | .error e => .error e
        | .ok qa => .ok { b with parts := b.parts ++ ["FROM", qt, "AS", qa] }

/-- `where` (sql-builder.ts:114-118); `where` is a Lean keyword, hence
the `C` suffix.  The condition string is appended verbatim. -/
def SQLBuilder.whereC (b : SQLBuilder) (condition : String) : SQLBuilder :=
  { b with parts := b.parts ++ ["WHERE", condition] }

/-- `and` (sql-builder.ts:123-127). -/
def SQLBuilder.andC (b : SQLBuilder) (condition : String) : SQLBuilder :=
  { b with parts := b.parts ++ ["AND", condition] }

/-- `or` (sql-builder.ts:132-136). -/
def SQLBuilder.orC (b : SQLBuilder) (condition : String) : SQLBuilder :=
  { b with parts := b.parts ++ ["OR", condition] }

/-- The `'ASC' | 'DESC'` direction enumeration. -/
inductive Dir where
  | asc
  | desc
deriving DecidableEq, Repr

/-- SQL keyword of a direction. -/
def Dir.str : Dir → String
  | .asc => "ASC"
  | .desc => "DESC"

/-- `orderBy` (sql-builder.ts:141-152): whether `ORDER BY` was already
emitted is detected by scanning the space-joined parts for the keyword;
if found, a `,` is pushed instead of a second `ORDER BY`. -/
def SQLBuilder.orderBy (b : SQLBuilder) (field : String) (direction : Dir := .asc) :
    Except SQLInjectionError SQLBuilder :=
  match identifier field with
  | .error e => .error e
  | .ok q =>
    if containsSubstr (joinParts b.parts) "ORDER BY" then
      .ok { b with parts := b.parts ++ [",", q, direction.str] }
    else
      .ok { b with parts := b.parts ++ ["ORDER BY", q, direction.str] }

/-- `groupBy` (sql-builder.ts:157-161). -/
def SQLBuilder.groupBy (b : SQLBuilder) (fields : List String) :
    Except SQLInjectionError SQLBuilder :=
  match identifiers fields with
  | .error e => .error e
  | .ok qs => .ok { b with parts := b.parts ++ ["GROUP BY", joinWith ", " qs] }

/-- `limit` (sql-builder.ts:166-173); the count is modelled as an
integer, `String(count)` as its decimal rendering. -/
def SQLBuilder.limit (b : SQLBuilder) (count : Int) :
    Except SQLInjectionError SQLBuilder :=
  if count < 0 then .error ⟨"LIMIT must be non-negative", none⟩
  else .ok { b with parts := b.parts ++ ["LIMIT", toString count] }

/-- `offset` (sql-builder.ts:178-185). -/
def SQLBuilder.offset (b : SQLBuilder) (count : Int) :
    Except SQLInjectionError SQLBuilder :=
  if count < 0 then .error ⟨"OFFSET must be non-negative", none⟩
  else .ok { b with parts := b.parts ++ ["OFFSET", toString count] }

/-- `insertInto` (sql-builder.ts:215-220). -/
def SQLBuilder.insertInto (b : SQLBuilder) (table : String) (fields : List String) :
    Except SQLInjectionError SQLBuilder :=
  match identifier table with
  | .error e => .error e
  | .ok qt =>
    match identifiers fields with
    | .error e => .error e
    | .ok qs =>
      .ok { b with parts := b.parts ++
              ["INSERT INTO", qt, "(" ++ joinWith ", " qs ++ ")"] }

/-- The `rows.map` of `values`: parameterize each row in order,
wrapping its placeholders in parentheses. -/
def valueSets (b : SQLBuilder) : List (List JSValue) → List String × SQLBuilder
  | [] => ([], b)
  | row :: rest =>
      let (phs, b₁) := b.params row
      let (ss, b₂) := valueSets b₁ rest
      (("(" ++ joinWith ", " phs ++ ")") :: ss, b₂)

/-- `values` (sql-builder.ts:225-235). -/
def SQLBuilder.values (b : SQLBuilder) (rows : List (List JSValue)) : SQLBuilder :=
  let b₁ := { b with parts := b.parts ++ ["VALUES"] }
  let (ss, b₂) := valueSets b₁ rows
  { b₂ with parts := b₂.parts ++ [joinWith ", " ss] }

/-- `update` (sql-builder.ts:240-244). -/
def SQLBuilder.update (b : SQLBuilder) (table : String) :
    Except SQLInjectionError SQLBuilder :=
  match identifier table with
  | .error e => .error e
  | .ok qt => .ok { b with parts := b.parts ++ ["UPDATE", qt] }

/-- The entry mapping shared by `set` and the factories' WHERE blocks:
for each `(key, value)` in order, escape the key (the thrown error
propagating) and parameterize the value, producing
`` `key` = {paramN:Tag} `` strings. -/
def assignEntries (b : SQLBuilder) :
    List (String × JSValue) → Except SQLInjectionError (List String × SQLBuilder)
  | [] => .ok ([], b)
  | (k, v) :: rest =>
    match identifier k with
    | .error e => .error e
    | .ok q =>
      let (ph, b₁) := b.param v
      match assignEntries b₁ rest with
      | .error e => .error e
      | .ok (ss, b₂) => .ok ((q ++ " = " ++ ph) :: ss, b₂)

/-- `set` (sql-builder.ts:249-258). -/
def SQLBuilder.set (b : SQLBuilder) (updates : List (String × JSValue)) :
    Except SQLInjectionError SQLBuilder :=
  match assignEntries b updates with
  | .error e => .error e
  | .ok (ss, b₁) =>
    .ok { b₁ with parts := b₁.parts ++ ["SET", joinWith ", " ss] }

/-- `deleteFrom` (sql-builder.ts:263-267). -/
def SQLBuilder.deleteFrom (b : SQLBuilder) (table : String) :
    Except SQLInjectionError SQLBuilder :=
  match identifier table with
  | .error e => .error e
  | .ok qt => .ok { b with parts := b.parts ++ ["DELETE FROM", qt] }

/-- `record[field]`: first binding of the key, `undefined` when absent. -/
def lookupField (record : List (String × JSValue)) (field : String) : JSValue :=
  match record.find? (fun p => p.1 = field) with
  | some p => p.2
  | none => .vUndefined

/-- Options bag of `buildSelect`; a JS `Record` is modelled by its
ordered entry list. -/
structure SelectOptions where
  fields : Option (List String) := none
  whereM : Option (List (String × JSValue)) := none
  orderByM : Option (List (String × Dir)) := none
  limitM : Option Int := none
  offsetM : Option Int := none

/-- The `forEach` over the orderBy map in `buildSelect`. -/
def orderByFold (b : SQLBuilder) : List (String × Dir) → Except SQLInjectionError SQLBuilder
  | [] => .ok b
  | (f, d) :: rest =>
    match b.orderBy f d with
    | .error e => .error e
    | .ok b₁ => orderByFold b₁ rest

/-- The shared WHERE block of the factories (sql-builder.ts:396-401,
457-462, 478-483): when the mapping has at least one key, lower each
entry to `` `key` = {paramN:Tag} ``, join with ` AND `, and append a
WHERE clause; otherwise leave the builder untouched. -/
def whereFromEntries (b : SQLBuilder) (w : List (String × JSValue)) :
    Except SQLInjectionError SQLBuilder :=
  if 0 < w.length then
    match assignEntries b w with
    | .error e => .error e
    | .ok (conds, b₁) => .ok (b₁.whereC (joinWith " AND " conds))
  else .ok b

/-- `buildSelect` (sql-builder.ts:377-419). -/
def buildSelect (table : String) (options : SelectOptions) :
    Except SQLInjectionError (String × List JSValue) :=
  match SQLBuilder.empty.select (options.fields.getD ["*"]) with
  | .error e => .error e
  | .ok b₁ =>
  match b₁.fromC table with
  | .error e => .error e
  | .ok b₂ =>
  match (match options.whereM with
         | some w => whereFromEntries b₂ w
         | none => .ok b₂) with
  | .error e => .error e
  | .ok b₃ =>
  match (match options.orderByM with
         | some obs => orderByFold b₃ obs
         | none => .ok b₃) with
  | .error e => .error e
  | .ok b₄ =>
  match (match options.limitM with
         | some n => b₄.limit n
         | none => .ok b₄) with
  | .error e => .error e
  | .ok b₅ =>
  match (match options.offsetM with
         | some n => b₅.offset n
         | none => .ok b₅) with
  | .error e => .error e
  | .ok b₆ => .ok b₆.build

/-- `buildInsert` (sql-builder.ts:424-442); the `Array.isArray` wrapper
is modelled by always taking the record list. -/
def buildInsert (table : String) (records : List (List (String × JSValue))) :
    Except SQLInjectionError (String × List JSValue) :=
  if records.length = 0 then .error ⟨"INSERT requires at least one record", none⟩
  else
    let fields := (records.headD []).map Prod.fst
    match SQLBuilder.empty.insertInto table fields with
    | .error e => .error e
    | .ok b₁ =>
      let rows := records.map (fun record => fields.map (fun field => lookupField record field))
      .ok (b₁.values rows).build

/-- `buildUpdate` (sql-builder.ts:447-465). -/
def buildUpdate (table : String) (data : List (String × JSValue))
    (whereM : List (String × JSValue)) :
    Except SQLInjectionError (String × List JSValue) :=
  match SQLBuilder.empty.update table with
  | .error e => .error e
  | .ok b₁ =>
  match b₁.set data with
  | .error e => .error e
  | .ok b₂ =>
  match whereFromEntries b₂ whereM with
  | .error e => .error e
  | .ok b₃ => .ok b₃.build

/-- `buildDelete` (sql-builder.ts:470-486). -/
def buildDelete (table : String) (whereM : List (String × JSValue)) :
    Except SQLInjectionError (String × List JSValue) :=
  match SQLBuilder.empty.deleteFrom table with
  | .error e => .error e
  | .ok b₁ =>
  match whereFromEntries b₁ whereM with
  | .error e => .error e
  | .ok b₂ => .ok b₂.build

/-- Modelled from the spec: the Condition Compiler's comparison
vocabulary (its source file is not among the provided sources); only
the scalar single-placeholder operators are needed here. -/
inductive CondOp where
  | ceq
  | cne
  | cgt
  | cgte
  | clt
  | clte
deriving DecidableEq, Repr

/-- Modelled from the spec: the SQL symbol a comparison leaf emits. -/
def CondOp.sql : CondOp → String
  | .ceq => "="
  | .cne => "!="
  | .cgt => ">"
  | .cgte => ">="
  | .clt => "<"
  | .clte => "<="

/-- Modelled from the spec: the binary logical combinators. -/
inductive CombKind where
  | cAnd
  | cOr
deriving DecidableEq, Repr

/-- Modelled from the spec: the logical keyword of a combinator. -/
def CombKind.keyword : CombKind → String
  | .cAnd => "AND"
  | .cOr => "OR"

/-- Modelled from the spec: the canonical condition tree — a leaf
`{field, operator, operand}`, a combinator over an ordered child list,
or a NOT wrapper. -/
inductive Cond where
  | leaf (field : String) (op : CondOp) (value : JSValue)
  | comb (k : CombKind) (children : List Cond)
  | cnot (child : Cond)

mutual

/-- Modelled from the spec: the Condition Compiler's lowering (§4.4,
source file not among the provided sources).  A leaf becomes
`<validated field> <sql operator> <placeholder>` reusing the assembler's
identifier validation and parameter encoding; a combinator joins its
lowered children with its keyword and parenthesizes the joined group
whenever it has more than one child or is itself nested beneath another
combinator (`nested`); NOT wraps its child's fragment in `NOT (...)`.
Children are compiled left to right, depth first, so parameters append
in leaf visiting order. -/
def compileCond (b : SQLBuilder) (nested : Bool) : Cond → Except SQLInjectionError (String × SQLBuilder)
  | .leaf f op v =>
    match identifier f with
    | .error e => .error e
    | .ok q =>
      let (ph, b₁) := b.param v
      .ok (q ++ " " ++ op.sql ++ " " ++ ph, b₁)
  | .comb k children =>
    match compileChildren b children with
    | .error e => .error e
    | .ok (frags, b₁) =>
      .ok (if 1 < children.length || nested
            then "(" ++ joinWith (" " ++ k.keyword ++ " ") frags ++ ")"
            else joinWith (" " ++ k.keyword ++ " ") frags, b₁)
  | .cnot child =>
    match compileCond b true child with
    | .error e => .error e
    | .ok (s, b₁) => .ok ("NOT (" ++ s ++ ")", b₁)

/-- Modelled from the spec: left-to-right lowering of a combinator's
children, each compiled as nested, threading the assembler state. -/
def compileChildren (b : SQLBuilder) : List Cond → Except SQLInjectionError (List String × SQLBuilder)
  | [] => .ok ([], b)
  | c :: cs =>
    match compileCond b true c with
    | .error e => .error e
    | .ok (s, b₁) =>
      match compileChildren b₁ cs with
      | .error e => .error e
      | .ok (ss, b₂) => .ok (s :: ss, b₂)

end

/-- Tag table of the specification (§4.2 / claim C3), stated from the
spec's words to compare against `inferClickHouseType`. -/
def specTag : JSValue → String
  | .vDate _ => "DateTime"
  | .vBool _ => "UInt8"
  | .vObj _ => "String"
  | .vNull => "Nullable(String)"
  | .vUndefined => "Nullable(String)"
  | .vNum q => if q.den = 1 then "Int32" else "Float64"
  | .vBigInt _ => "Int64"
  | .vStr _ => "String"
  | .vArr _ => "Array(String)"

/-- Wire-value table of the specification (§4.2 / claim C3), stated from
the spec's words to compare against `convertParamValue`. -/
def specWire : JSValue → JSValue
  | .vDate ms => .vNum ((Int.fdiv ms 1000 : Int) : Rat)
  | .vBool b => .vNum (if b then 1 else 0)
  | .vObj json => .vStr json
  | v => v

/-! ### Supporting lemmas -/

theorem isIdentStart_ne_backtick {c : Char} (h : isIdentStart c = true) : c ≠ '`' := by
  intro hc
  subst hc
  exact absurd h (by decide)

theorem isIdentChar_ne_backtick {c : Char} (h : isIdentChar c = true) : c ≠ '`' := by
  intro hc
  subst hc
  exact absurd h (by decide)

theorem matchToken_chars {t : List Char} (h : matchToken t = true) : ∀ c ∈ t, c ≠ '`' := by
  match t with
  | [] => exact absurd h (by decide)
  | c₀ :: rest =>
    rw [matchToken, Bool.and_eq_true] at h
    intro c hc
    rcases List.mem_cons.mp hc with rfl | hmem
    · exact isIdentStart_ne_backtick h.1
    · exact isIdentChar_ne_backtick (List.all_eq_true.mp h.2 c hmem)

theorem doubleBackticks_of_no_backtick {t : List Char} (h : ∀ c ∈ t, c ≠ '`') :
    doubleBackticks t = t := by
  induction t with
  | nil => rfl
  | cons c rest ih =>
    rw [doubleBackticks, if_neg (h c (List.mem_cons_self c rest))]
    rw [ih (fun x hx => h x (List.mem_cons_of_mem c hx))]

theorem identifier_ok_elim {name q : String} (h : identifier name = .ok q) :
    regexTest name = true ∧ q = escapeIdentifier name := by
  rw [identifier, validateIdentifier] at h
  by_cases hr : regexTest name = true
  · rw [if_pos hr] at h
    exact ⟨hr, (Except.ok.injEq _ _).mp h.symm⟩
  · rw [if_neg hr] at h
    exact absurd h (by simp)

theorem identifiers_all_ok {l : List String} (h : ∀ f ∈ l, regexTest f = true) :
    identifiers l = .ok (l.map escapeIdentifier) := by
  induction l with
  | nil => rfl
  | cons n ns ih =>
    rw [identifiers, identifier, validateIdentifier,
        if_pos (h n (List.mem_cons_self n ns)),
        ih (fun f hf => h f (List.mem_cons_of_mem n hf))]
    rfl

/-! ### C1: identifier validation and escaping -/

/-- C1: for every name whose dot-separated tokens each match
`[A-Za-z_][A-Za-z0-9_]*` (that is, the name passes the source regex
test, stated here as `regexTest`), `identifier` returns the name with
every token wrapped in backticks and the wrapped tokens joined by `.`;
for every name failing that test — a zero-length segment, a leading
digit, or any character outside the class — `identifier` returns the
`SQLInjectionError` carrying the offending string. -/
theorem identifier_spec (name : String) :
    (regexTest name = true →
      identifier name =
        .ok (joinWith "." ((splitOnDot name.data).map (fun t => "`" ++ String.mk t ++ "`")))) ∧
    (regexTest name = false →
      identifier name = .error
        ⟨"Invalid identifier: " ++ name ++
          ". Identifiers must start with a letter or underscore and contain only alphanumeric characters, underscores, or dots.",
         some name⟩) := by
  constructor
  · intro h
    rw [identifier, validateIdentifier, if_pos h]
    rw [escapeIdentifier]
    have hmap : (splitOnDot name.data).map
        (fun part => "`" ++ String.mk (doubleBackticks part) ++ "`") =
        (splitOnDot name.data).map (fun t => "`" ++ String.mk t ++ "`") := by
      apply List.map_congr_left
      intro t ht
      rw [regexTest] at h
      have hm : matchToken t = true := List.all_eq_true.mp h t ht
      rw [doubleBackticks_of_no_backtick (matchToken_chars hm)]
    rw [hmap]
  · intro h
    rw [identifier, validateIdentifier, if_neg (by rw [h]; exact Bool.false_ne_true)]

/-- Witness for C1 at a valid qualified name and at a name with a
leading digit. -/
theorem identifier_spec_witness :
    identifier "db.users_2" = .ok "`db`.`users_2`" ∧
    identifier "1bad" = .error
      ⟨"Invalid identifier: 1bad. Identifiers must start with a letter or underscore and contain only alphanumeric characters, underscores, or dots.",
       some "1bad"⟩ :=
  ⟨((identifier_spec "db.users_2").1 (by decide)).trans (by rfl),
   ((identifier_spec "1bad").2 (by decide)).trans (by rfl)⟩

/-! ### C2: placeholder/parameter alignment -/

theorem params_run (vs : List JSValue) (b : SQLBuilder) :
    (b.params vs).1 =
      (List.enumFrom b.paramCounter vs).map
        (fun p => "\x7bparam" ++ toString p.1 ++ ":" ++
          inferClickHouseType (convertParamValue p.2) p.2 ++ "\x7d") ∧
    (b.params vs).2.parameters = b.parameters ++ vs.map convertParamValue ∧
    (b.params vs).2.paramCounter = b.paramCounter + vs.length ∧
    (b.params vs).2.parts = b.parts := by
  induction vs generalizing b with
  | nil => simp [SQLBuilder.params]
  | cons v vs ih =>
    obtain ⟨ih1, ih2, ih3, ih4⟩ :=
      ih { b with parameters := b.parameters ++ [convertParamValue v],
                  paramCounter := b.paramCounter + 1 }
    refine ⟨?_, ?_, ?_, ?_⟩ <;>
      simp_all [SQLBuilder.params, SQLBuilder.param, List.enumFrom]
    all_goals omega

/-- C2: for any sequence of `param` calls on a fresh (or freshly reset)
builder, the returned placeholders are `{param0:Tag0}` through
`{param(N-1):Tag(N-1)}` in call order (placeholder `k` carrying the
counter value `k`), `getParams` returns exactly the `N` wire values in
call order (so placeholder `k` refers to position `k`), the counter
ends at `N`, a single `param` call never decreases the counter, and
`reset` is the only operation returning to the fresh state. -/
theorem param_sequence_spec (vs : List JSValue) :
    (SQLBuilder.empty.params vs).1 =
      vs.enum.map (fun p => "\x7bparam" ++ toString p.1 ++ ":" ++
        inferClickHouseType (convertParamValue p.2) p.2 ++ "\x7d") ∧
    (SQLBuilder.empty.params vs).1.length = vs.length ∧
    (SQLBuilder.empty.params vs).2.getParams = vs.map convertParamValue ∧
    (SQLBuilder.empty.params vs).2.paramCounter = vs.length ∧
    (∀ (b : SQLBuilder) (v : JSValue), b.paramCounter ≤ (b.param v).2.paramCounter) ∧
    (∀ b : SQLBuilder, b.reset = SQLBuilder.empty) := by
  obtain ⟨h1, h2, h3, h4⟩ := params_run vs SQLBuilder.empty
  refine ⟨?_, ?_, ?_, ?_, ?_, ?_⟩
  · rw [h1]
    rfl
  · rw [h1, List.length_map, List.enumFrom_length]
  · rw [SQLBuilder.getParams, h2]
    rfl
  · rw [h3]
    exact Nat.zero_add _
  · intro b v
    exact Nat.le_succ _
  · intro b
    rfl

/-! ### C3: wire conversion and type-tag inference -/

/-- C3: `param` stores exactly the wire value of the spec's table
(`specWire`: Dates become floor(epoch-ms/1000) seconds, booleans 1/0,
plain objects their JSON text, all else unchanged) and emits the tag of
the spec's table (`specTag`: DateTime, UInt8, String for objects,
Nullable(String) for null/undefined, Int32/Float64 by integrality,
Int64 for bigint, String, Array(String)).  The final two equations show
the tag is decided from the original value, not the converted wire
value: judged from the wire value alone, a boolean's or a Date's
parameter would get tag Int32. -/
theorem param_type_table (b : SQLBuilder) (v : JSValue) :
    b.param v =
      ("\x7bparam" ++ toString b.paramCounter ++ ":" ++ specTag v ++ "\x7d",
       { b with parameters := b.parameters ++ [specWire v],
                paramCounter := b.paramCounter + 1 }) ∧
    inferClickHouseType (convertParamValue (.vBool true)) (convertParamValue (.vBool true))
      = "Int32" ∧
    inferClickHouseType (convertParamValue (.vDate 0)) (convertParamValue (.vDate 0))
      = "Int32" := by
  refine ⟨?_, by rfl, by rfl⟩
  cases v <;> simp [SQLBuilder.param, convertParamValue, inferClickHouseType, specTag, specWire]

/-! ### C4: condition compiler parenthesization (spec-modelled) -/

/-- C4: compiling `AND(eq(a,1), OR(eq(b,2), eq(c,3)))` produces a
fragment in which the OR group is parenthesized (as is the multi-child
AND group), and in general the compiler parenthesizes a combinator's
joined children whenever the combinator has more than one child or is
nested beneath another combinator. -/
theorem condition_precedence_spec :
    compileCond SQLBuilder.empty false
      (.comb .cAnd [.leaf "a" .ceq (.vNum 1),
                    .comb .cOr [.leaf "b" .ceq (.vNum 2), .leaf "c" .ceq (.vNum 3)]]) =
      .ok ("(`a` = \x7bparam0:Int32\x7d AND (`b` = \x7bparam1:Int32\x7d OR `c` = \x7bparam2:Int32\x7d))",
           { parts := [], parameters := [.vNum 1, .vNum 2, .vNum 3], paramCounter := 3 }) ∧
    (∀ (k : CombKind) (children : List Cond) (b : SQLBuilder) (nested : Bool)
        (sql : String) (b' : SQLBuilder),
      (1 < children.length ∨ nested = true) →
      compileCond b nested (.comb k children) = .ok (sql, b') →
      ∃ inner, sql = "(" ++ inner ++ ")") := by
  refine ⟨rfl, ?_⟩
  intro k children b nested sql b' hcond h
  rw [compileCond] at h
  cases hch : compileChildren b children with
  | error e =>
    rw [hch] at h
    exact absurd h (by simp)
  | ok pr =>
    obtain ⟨frags, b₁⟩ := pr
    rw [hch] at h
    dsimp only at h
    have hb : (decide (1 < children.length) || nested) = true := by
      rcases hcond with h1 | h1 <;> simp [h1]
    rw [if_pos hb] at h
    simp only [Except.ok.injEq, Prod.mk.injEq] at h
    exact ⟨joinWith (" " ++ k.keyword ++ " ") frags, h.1.symm⟩

/-- Witness for C4's general part: a two-child OR compiled as nested is
parenthesized. -/
theorem condition_precedence_spec_witness :
    ∃ inner,
      "(`b` = \x7bparam0:Int32\x7d OR `c` = \x7bparam1:Int32\x7d)" = "(" ++ inner ++ ")" :=
  condition_precedence_spec.2 .cOr [.leaf "b" .ceq (.vNum 2), .leaf "c" .ceq (.vNum 3)]
    SQLBuilder.empty true
    "(`b` = \x7bparam0:Int32\x7d OR `c` = \x7bparam1:Int32\x7d)"
    { parts := [], parameters := [.vNum 2, .vNum 3], paramCounter := 2 }
    (Or.inr rfl) rfl

/-! ### C5: empty record sets in the statement factories -/

/-- Counterexample to C5 as stated: `buildUpdate` with an empty data
mapping and `buildDelete` with an empty filter mapping do NOT throw the
injection-class error — both return successfully (the former with an
empty SET assignment list, the latter without a WHERE clause). -/
theorem build_empty_counterexample :
    buildUpdate "users" [] [("id", .vNum 1)] =
      .ok ("UPDATE `users` SET  WHERE `id` = \x7bparam0:Int32\x7d", [.vNum 1]) ∧
    buildDelete "users" [] = .ok ("DELETE FROM `users`", []) :=
  ⟨rfl, rfl⟩

/-- C5 (amended): only `buildInsert` rejects an empty record set — an
empty record list yields the injection-class error before any SQL is
produced; `buildUpdate` with an empty data mapping succeeds, emitting
an UPDATE whose SET clause carries an empty assignment list, and
`buildDelete` with an empty filter mapping succeeds, omitting the WHERE
clause. -/
theorem build_empty_records_spec (table : String) :
    buildInsert table [] = .error ⟨"INSERT requires at least one record", none⟩ ∧
    buildUpdate "users" [] [] = .ok ("UPDATE `users` SET ", []) ∧
    buildDelete "users" [] = .ok ("DELETE FROM `users`", []) :=
  ⟨rfl, rfl, rfl⟩

/-! ### C6: ORDER BY accumulation and its text-scan detection -/

theorem joinWith_cons_ne (sep x : String) {rest : List String} (h : rest ≠ []) :
    joinWith sep (x :: rest) = x ++ sep ++ joinWith sep rest := by
  cases rest with
  | nil => exact absurd rfl h
  | cons a l => rfl

theorem joinWith_append (sep : String) (xs ys : List String) (hys : ys ≠ []) :
    joinWith sep (xs ++ ys) =
      (if xs = [] then joinWith sep ys
       else joinWith sep xs ++ sep ++ joinWith sep ys) := by
  induction xs with
  | nil => simp
  | cons x xs ih =>
    rw [List.cons_append]
    have hne : xs ++ ys ≠ [] := by
      intro hc
      exact hys (List.append_eq_nil.mp hc).2
    rw [joinWith_cons_ne sep x hne, ih]
    by_cases hxs : xs = []
    · subst hxs
      simp [joinWith]
    · rw [if_neg hxs, if_neg (by simp), joinWith_cons_ne sep x hxs]
      simp [String.append_assoc]

theorem isPrefixOf_append (p s t : List Char) (h : p.isPrefixOf s = true) :
    p.isPrefixOf (s ++ t) = true := by
  rw [List.isPrefixOf_iff_prefix] at h ⊢
  exact h.trans (List.prefix_append s t)

theorem hasSubList_nil_pat (t : List Char) : hasSubList t [] = true := by
  cases t <;> simp [hasSubList, List.isPrefixOf]

theorem hasSubList_nil_elim {p : List Char} (h : hasSubList [] p = true) : p = [] := by
  cases p with
  | nil => rfl
  | cons c q => exact absurd h (by simp [hasSubList, List.isPrefixOf])

theorem hasSubList_append_right (s t p : List Char) (h : hasSubList s p = true) :
    hasSubList (s ++ t) p = true := by
  induction s with
  | nil =>
    rw [hasSubList_nil_elim h]
    exact hasSubList_nil_pat _
  | cons c s' ih =>
    rw [hasSubList, Bool.or_eq_true] at h
    rw [List.cons_append, hasSubList, Bool.or_eq_true]
    rcases h with h | h
    · exact Or.inl (isPrefixOf_append _ _ _ h)
    · exact Or.inr (ih h)

theorem hasSubList_append_left (s t p : List Char) (h : hasSubList t p = true) :
    hasSubList (s ++ t) p = true := by
  induction s with
  | nil => exact h
  | cons c s' ih =>
    rw [List.cons_append, hasSubList, Bool.or_eq_true]
    exact Or.inr ih

theorem hasSubList_self_append (p t : List Char) : hasSubList (p ++ t) p = true := by
  cases p with
  | nil => exact hasSubList_nil_pat _
  | cons c p' =>
    rw [List.cons_append, hasSubList, Bool.or_eq_true]
    left
    rw [← List.cons_append, List.isPrefixOf_iff_prefix]
    exact List.prefix_append _ _

theorem containsSubstr_append_left (s t p : String) (h : containsSubstr t p = true) :
    containsSubstr (s ++ t) p = true := by
  rw [containsSubstr, String.data_append]
  exact hasSubList_append_left _ _ _ h

theorem containsSubstr_append_right (s t p : String) (h : containsSubstr s p = true) :
    containsSubstr (s ++ t) p = true := by
  rw [containsSubstr, String.data_append]
  exact hasSubList_append_right _ _ _ h

theorem containsSubstr_self_append (p t : String) : containsSubstr (p ++ t) p = true := by
  rw [containsSubstr, String.data_append]
  exact hasSubList_self_append _ _

theorem joinParts_contains_orderBy (xs : List String) (q s : String) :
    containsSubstr (joinParts (xs ++ ["ORDER BY", q, s])) "ORDER BY" = true := by
  rw [joinParts, joinWith_append " " xs ["ORDER BY", q, s] (by simp)]
  by_cases hxs : xs = []
  · rw [if_pos hxs, joinWith_cons_ne " " "ORDER BY" (by simp), String.append_assoc]
    exact containsSubstr_self_append _ _
  · rw [if_neg hxs, String.append_assoc]
    apply containsSubstr_append_left
    apply containsSubstr_append_left
    rw [joinWith_cons_ne " " "ORDER BY" (by simp), String.append_assoc]
    exact containsSubstr_self_append _ _

theorem joinParts_contains_mono (xs ys : List String) (p : String)
    (h : containsSubstr (joinParts xs) p = true) (hys : ys ≠ []) :
    containsSubstr (joinParts (xs ++ ys)) p = true := by
  rw [joinParts, joinWith_append " " xs ys hys]
  by_cases hxs : xs = []
  · rw [if_pos hxs]
    subst hxs
    have hp : p.data = [] := hasSubList_nil_elim h
    rw [containsSubstr, hp]
    exact hasSubList_nil_pat _
  · rw [if_neg hxs]
    exact containsSubstr_append_right _ _ _ (containsSubstr_append_right _ _ _ h)

theorem orderBy_emits_keyword (b : SQLBuilder) (f : String) (d : Dir) (b' : SQLBuilder)
    (h : b.orderBy f d = .ok b') :
    containsSubstr (joinParts b'.parts) "ORDER BY" = true := by
  rw [SQLBuilder.orderBy] at h
  cases hq : identifier f with
  | error e =>
    rw [hq] at h
    exact absurd h (by simp)
  | ok q =>
    rw [hq] at h
    dsimp only at h
    by_cases hc : containsSubstr (joinParts b.parts) "ORDER BY" = true
    · rw [if_pos hc] at h
      simp only [Except.ok.injEq] at h
      subst h
      exact joinParts_contains_mono _ _ _ hc (by simp)
    · rw [if_neg hc] at h
      simp only [Except.ok.injEq] at h
      subst h
      exact joinParts_contains_orderBy b.parts q d.str

/-- Counterexample to C6 as stated: on an assembler whose already-emitted
text contains the substring `ORDER BY` (here from a WHERE condition
holding a subquery), the FIRST `orderBy` call appends a comma-prefixed
ordering term, not an `ORDER BY` keyword. -/
theorem orderBy_first_call_counterexample :
    (SQLBuilder.empty.whereC "id IN (SELECT id FROM t ORDER BY ts LIMIT 5)").orderBy
        "name" Dir.asc =
      .ok { parts := ["WHERE", "id IN (SELECT id FROM t ORDER BY ts LIMIT 5)",
                      ",", "`name`", "ASC"] } ∧
    (["WHERE", "id IN (SELECT id FROM t ORDER BY ts LIMIT 5)", ",", "`name`", "ASC"] ≠
     ["WHERE", "id IN (SELECT id FROM t ORDER BY ts LIMIT 5)", "ORDER BY", "`name`", "ASC"]) :=
  ⟨rfl, by decide⟩

/-- C6 (amended): an `orderBy(field, direction)` call appends
`ORDER BY <quoted field> <direction>` exactly when the already-emitted
text (the space-joined parts) does not contain the substring
`ORDER BY`, and appends `, <quoted field> <direction>` when it does —
in particular after any earlier successful `orderBy` call, whose output
always leaves the keyword in the emitted text; on a fresh assembler
`orderBy('name','ASC')` then `orderBy('age','DESC')` yields
`` ORDER BY `name` ASC , `age` DESC ``. -/
theorem orderBy_spec (b : SQLBuilder) (field : String) (d : Dir) (q : String) :
    (identifier field = .ok q →
      (containsSubstr (joinParts b.parts) "ORDER BY" = false →
        b.orderBy field d = .ok { b with parts := b.parts ++ ["ORDER BY", q, d.str] }) ∧
      (containsSubstr (joinParts b.parts) "ORDER BY" = true →
        b.orderBy field d = .ok { b with parts := b.parts ++ [",", q, d.str] })) ∧
    (∀ b', b.orderBy field d = .ok b' →
      containsSubstr (joinParts b'.parts) "ORDER BY" = true) ∧
    ((SQLBuilder.empty.orderBy "name" Dir.asc).bind
        (fun b₁ => b₁.orderBy "age" Dir.desc)).map SQLBuilder.toSQL =
      .ok "ORDER BY `name` ASC , `age` DESC" := by
  refine ⟨?_, ?_, by rfl⟩
  · intro hq
    constructor
    · intro hc
      rw [SQLBuilder.orderBy, hq]
      dsimp only
      rw [if_neg (by rw [hc]; exact Bool.false_ne_true)]
    · intro hc
      rw [SQLBuilder.orderBy, hq]
      dsimp only
      rw [if_pos hc]
  · intro b' h
    exact orderBy_emits_keyword b field d b' h

/-- Witness for C6's amended theorem: a fresh assembler gets the
keyword, and the produced state contains it for the next call. -/
theorem orderBy_spec_witness :
    SQLBuilder.empty.orderBy "name" Dir.asc =
      .ok { SQLBuilder.empty with
              parts := SQLBuilder.empty.parts ++ ["ORDER BY", "`name`", "ASC"] } ∧
    containsSubstr
      (joinParts (SQLBuilder.empty.parts ++ ["ORDER BY", "`name`", "ASC"])) "ORDER BY" = true :=
  ⟨((orderBy_spec SQLBuilder.empty "name" Dir.asc "`name`").1 rfl).1 (by decide),
   (orderBy_spec SQLBuilder.empty "name" Dir.asc "`name`").2.1
     { SQLBuilder.empty with parts := SQLBuilder.empty.parts ++ ["ORDER BY", "`name`", "ASC"] }
     (((orderBy_spec SQLBuilder.empty "name" Dir.asc "`name`").1 rfl).1 (by decide))⟩

/-! ### C7: SELECT field handling -/

/-- C7: `select` throws the injection-class error exactly on an empty
field list; any list containing `*` emits a bare unquoted `*`; any
other (all-valid) list emits the comma-joined backtick-quoted
identifiers in order. -/
theorem select_spec (b : SQLBuilder) (fields : List String) :
    (fields = [] → b.select fields = .error ⟨"SELECT fields cannot be empty", none⟩) ∧
    (fields.contains "*" = true →
      b.select fields = .ok { b with parts := b.parts ++ ["SELECT", "*"] }) ∧
    (fields ≠ [] → fields.contains "*" = false → (∀ f ∈ fields, regexTest f = true) →
      b.select fields =
        .ok { b with
                parts := b.parts ++ ["SELECT", joinWith ", " (fields.map escapeIdentifier)] }) := by
  refine ⟨?_, ?_, ?_⟩
  · intro h
    subst h
    rfl
  · intro h
    have hne : fields ≠ [] := by
      intro he
      subst he
      exact absurd h (by decide)
    rw [SQLBuilder.select, if_neg (by simpa using hne), if_pos h]
  · intro h1 h2 h3
    rw [SQLBuilder.select, if_neg (by simpa using h1),
        if_neg (by rw [h2]; exact Bool.false_ne_true), identifiers_all_ok h3]

/-- Witness for C7 at an empty list, a `*` list, and a two-field list. -/
theorem select_spec_witness :
    SQLBuilder.empty.select [] = .error ⟨"SELECT fields cannot be empty", none⟩ ∧
    SQLBuilder.empty.select ["*"] =
      .ok { SQLBuilder.empty with parts := SQLBuilder.empty.parts ++ ["SELECT", "*"] } ∧
    SQLBuilder.empty.select ["id", "name"] =
      .ok { SQLBuilder.empty with
              parts := SQLBuilder.empty.parts ++
                ["SELECT", joinWith ", " (["id", "name"].map escapeIdentifier)] } :=
  ⟨(select_spec SQLBuilder.empty []).1 rfl,
   (select_spec SQLBuilder.empty ["*"]).2.1 (by decide),
   (select_spec SQLBuilder.empty ["id", "name"]).2.2 (by decide) (by decide) (by decide)⟩

/-! ### C8: LIMIT and OFFSET bounds -/

/-- C8: `limit` and `offset` throw the injection-class error exactly
when the count is negative; for any count that is at least zero
(including zero) they append the keyword and the decimal rendering of
the count. -/
theorem limit_offset_spec (b : SQLBuilder) (count : Int) :
    (count < 0 →
      b.limit count = .error ⟨"LIMIT must be non-negative", none⟩ ∧
      b.offset count = .error ⟨"OFFSET must be non-negative", none⟩) ∧
    (0 ≤ count →
      b.limit count = .ok { b with parts := b.parts ++ ["LIMIT", toString count] } ∧
      b.offset count = .ok { b with parts := b.parts ++ ["OFFSET", toString count] }) := by
  constructor
  · intro h
    rw [SQLBuilder.limit, SQLBuilder.offset]
    rw [if_pos h, if_pos h]
    exact ⟨rfl, rfl⟩
  · intro h
    rw [SQLBuilder.limit, SQLBuilder.offset]
    rw [if_neg (not_lt.mpr h), if_neg (not_lt.mpr h)]
    exact ⟨rfl, rfl⟩

/-- Witness for C8 at counts `-1` and `0`. -/
theorem limit_offset_spec_witness :
    (SQLBuilder.empty.limit (-1) = .error ⟨"LIMIT must be non-negative", none⟩ ∧
     SQLBuilder.empty.offset (-1) = .error ⟨"OFFSET must be non-negative", none⟩) ∧
    (SQLBuilder.empty.limit 0 =
       .ok { SQLBuilder.empty with parts := SQLBuilder.empty.parts ++ ["LIMIT", toString (0 : Int)] } ∧
     SQLBuilder.empty.offset 0 =
       .ok { SQLBuilder.empty with parts := SQLBuilder.empty.parts ++ ["OFFSET", toString (0 : Int)] }) :=
  ⟨(limit_offset_spec SQLBuilder.empty (-1)).1 (by decide),
   (limit_offset_spec SQLBuilder.empty 0).2 (by decide)⟩

/-! ### C10: raw condition clauses -/

/-- C10: `where`, `and`, and `or` append exactly their keyword followed
by the condition string unchanged — with no validation, escaping, or
parameterization (the parameter list and counter are untouched), for
every condition string, and they cannot fail (they are total); the
emitted SQL is the previous SQL extended with `WHERE c` / `AND c` /
`OR c` verbatim. -/
theorem raw_condition_spec (b : SQLBuilder) (c : String) :
    (b.whereC c).parts = b.parts ++ ["WHERE", c] ∧
    (b.andC c).parts = b.parts ++ ["AND", c] ∧
    (b.orC c).parts = b.parts ++ ["OR", c] ∧
    (b.whereC c).parameters = b.parameters ∧
    (b.andC c).parameters = b.parameters ∧
    (b.orC c).parameters = b.parameters ∧
    (b.whereC c).paramCounter = b.paramCounter ∧
    (b.andC c).paramCounter = b.paramCounter ∧
    (b.orC c).paramCounter = b.paramCounter ∧
    (b.whereC c).toSQL =
      (if b.parts = [] then "WHERE" ++ " " ++ c else b.toSQL ++ " " ++ ("WHERE" ++ " " ++ c)) ∧
    (b.andC c).toSQL =
      (if b.parts = [] then "AND" ++ " " ++ c else b.toSQL ++ " " ++ ("AND" ++ " " ++ c)) ∧
    (b.orC c).toSQL =
      (if b.parts = [] then "OR" ++ " " ++ c else b.toSQL ++ " " ++ ("OR" ++ " " ++ c)) := by
  refine ⟨rfl, rfl, rfl, rfl, rfl, rfl, rfl, rfl, rfl, ?_, ?_, ?_⟩ <;>
    · simp only [SQLBuilder.toSQL, joinParts, SQLBuilder.whereC, SQLBuilder.andC,
        SQLBuilder.orC]
      rw [joinWith_append " " b.parts _ (by simp)]
      by_cases hb : b.parts = []
      · rw [if_pos hb, if_pos hb]
        rfl
      · rw [if_neg hb, if_neg hb]
        rfl

/-! ### C9: empty where mappings in the factories -/

theorem splitOnDot_exists_cons (l : List Char) : ∃ a as, splitOnDot l = a :: as := by
  induction l with
  | nil => exact ⟨[], [], rfl⟩
  | cons c rest ih =>
    obtain ⟨a, as, ha⟩ := ih
    by_cases hc : c = '.'
    · exact ⟨[], splitOnDot rest, by simp [splitOnDot, hc]⟩
    · exact ⟨c :: a, as, by simp [splitOnDot, hc, ha]⟩

theorem data_backtick_prefix (x y : String) :
    ("`" ++ x ++ y).data = '`' :: (x.data ++ y.data) := by
  rw [String.data_append, String.data_append]
  rfl

theorem data_append_backtick {x : String} {r : List Char} (h : x.data = '`' :: r)
    (y : String) : (x ++ y).data = '`' :: (r ++ y.data) := by
  rw [String.data_append, h]
  rfl

theorem escape_starts_backtick (s : String) :
    ∃ r, (escapeIdentifier s).data = '`' :: r := by
  rw [escapeIdentifier]
  obtain ⟨a, as, ha⟩ := splitOnDot_exists_cons s.data
  rw [ha]
  have hw : ("`" ++ String.mk (doubleBackticks a) ++ "`").data
      = '`' :: ((String.mk (doubleBackticks a)).data ++ "`".data) := data_backtick_prefix _ _
  cases as with
  | nil => exact ⟨_, hw⟩
  | cons a₂ rest =>
    simp only [List.map_cons]
    rw [joinWith_cons_ne "." _ (by simp)]
    exact ⟨_, data_append_backtick (data_append_backtick hw ".") _⟩

theorem backtick_ne_WHERE {s : String} {r : List Char} (h : s.data = '`' :: r) :
    s ≠ "WHERE" := by
  intro he
  rw [he] at h
  have h₂ : ('W' :: ('H' :: 'E' :: 'R' :: 'E' :: []) : List Char) = '`' :: r := h
  injection h₂ with h₃ _
  exact absurd h₃ (by decide)

theorem assignEntries_spec {l : List (String × JSValue)} {b b' : SQLBuilder}
    {ss : List String} (h : assignEntries b l = .ok (ss, b')) :
    b'.parts = b.parts ∧
    b'.parameters = b.parameters ++ l.map (fun p => convertParamValue p.2) ∧
    ∀ s ∈ ss, ∃ r, s.data = '`' :: r := by
  induction l generalizing b ss with
  | nil =>
    rw [assignEntries] at h
    simp only [Except.ok.injEq, Prod.mk.injEq] at h
    obtain ⟨h₁, h₂⟩ := h
    subst h₁
    subst h₂
    simp
  | cons kv rest ih =>
    obtain ⟨k, v⟩ := kv
    rw [assignEntries] at h
    cases hq : identifier k with
    | error e =>
      rw [hq] at h
      exact absurd h (by simp)
    | ok q =>
      rw [hq] at h
      dsimp only [SQLBuilder.param] at h
      cases hrec : assignEntries
          { b with parameters := b.parameters ++ [convertParamValue v],
                   paramCounter := b.paramCounter + 1 } rest with
      | error e =>
        rw [hrec] at h
        exact absurd h (by simp)
      | ok pr =>
        obtain ⟨ss₂, b₂⟩ := pr
        rw [hrec] at h
        simp only [Except.ok.injEq, Prod.mk.injEq] at h
        obtain ⟨hss, hb⟩ := h
        subst hss
        subst hb
        obtain ⟨hp₁, hp₂, hp₃⟩ := ih hrec
        refine ⟨by simpa using hp₁, by simpa [List.append_assoc] using hp₂, ?_⟩
        intro s hs
        rcases List.mem_cons.mp hs with rfl | hs₂
        · obtain ⟨r, hr⟩ := escape_starts_backtick k
          have hqe : q = escapeIdentifier k := (identifier_ok_elim hq).2
          subst hqe
          exact ⟨_, data_append_backtick (data_append_backtick hr " = ") _⟩
        · exact hp₃ s hs₂

theorem joined_ne_WHERE {ss : List String} (h : ∀ s ∈ ss, ∃ r, s.data = '`' :: r) :
    joinWith ", " ss ≠ "WHERE" := by
  cases ss with
  | nil => exact (by decide)
  | cons x rest =>
    obtain ⟨r, hr⟩ := h x (List.mem_cons_self _ _)
    cases rest with
    | nil => exact backtick_ne_WHERE hr
    | cons y t => exact backtick_ne_WHERE (data_append_backtick (data_append_backtick hr ", ") _)

/-- C9: a where mapping with no keys contributes no WHERE keyword, no
parameters, and no error: `buildSelect` with an empty where map equals
`buildSelect` with no where map at all; `buildUpdate` with an empty
where map returns exactly the built UPDATE/SET statement, whose parts
contain no `WHERE` and whose parameters come from the data mapping
alone; and `buildDelete` with an empty filter returns
`` DELETE FROM `table` `` with an empty parameter list. -/
theorem empty_where_spec (table : String) (flds : Option (List String))
    (ob : Option (List (String × Dir))) (lim off : Option Int)
    (data : List (String × JSValue)) :
    (buildSelect table ⟨flds, some [], ob, lim, off⟩ =
      buildSelect table ⟨flds, none, ob, lim, off⟩) ∧
    (∀ b₁ b₂, SQLBuilder.empty.update table = .ok b₁ → b₁.set data = .ok b₂ →
      buildUpdate table data [] = .ok b₂.build ∧
      "WHERE" ∉ b₂.parts ∧
      b₂.parameters = data.map (fun p => convertParamValue p.2)) ∧
    (∀ b₁, SQLBuilder.empty.deleteFrom table = .ok b₁ →
      buildDelete table [] = .ok b₁.build ∧ "WHERE" ∉ b₁.parts ∧ b₁.parameters = []) ∧
    (regexTest table = true →
      buildDelete table [] = .ok ("DELETE FROM " ++ escapeIdentifier table, [])) := by
  refine ⟨rfl, ?_, ?_, ?_⟩
  · intro b₁ b₂ hu hs
    cases hq : identifier table with
    | error e =>
      rw [SQLBuilder.update, hq] at hu
      exact absurd hu (by simp)
    | ok q =>
      rw [SQLBuilder.update, hq] at hu
      simp only [Except.ok.injEq] at hu
      subst hu
      rw [SQLBuilder.set] at hs
      cases hae : assignEntries
          { SQLBuilder.empty with parts := SQLBuilder.empty.parts ++ ["UPDATE", q] } data with
      | error e =>
        rw [hae] at hs
        exact absurd hs (by simp)
      | ok pr =>
        obtain ⟨ss, b₃⟩ := pr
        rw [hae] at hs
        simp only [Except.ok.injEq] at hs
        subst hs
        obtain ⟨hp₁, hp₂, hp₃⟩ := assignEntries_spec hae
        refine ⟨?_, ?_, ?_⟩
        · rw [buildUpdate, SQLBuilder.update, hq]
          dsimp only
          rw [SQLBuilder.set, hae]
          rfl
        · rw [hp₁]
          simp only [List.mem_append, List.mem_cons, List.not_mem_nil, or_false, not_or]
          have hqe : q = escapeIdentifier table := (identifier_ok_elim hq).2
          obtain ⟨r, hr⟩ := escape_starts_backtick table
          refine ⟨⟨?_, by decide, ?_⟩, by decide, ?_⟩
          · exact fun hc => absurd hc (by decide)
          · subst hqe
            exact fun hc => (backtick_ne_WHERE hr) hc.symm
          · exact fun hc => (joined_ne_WHERE hp₃) hc.symm
        · simpa using hp₂
  · intro b₁ hd
    cases hq : identifier table with
    | error e =>
      rw [SQLBuilder.deleteFrom, hq] at hd
      exact absurd hd (by simp)
    | ok q =>
      rw [SQLBuilder.deleteFrom, hq] at hd
      simp only [Except.ok.injEq] at hd
      subst hd
      refine ⟨?_, ?_, rfl⟩
      · rw [buildDelete, SQLBuilder.deleteFrom, hq]
        rfl
      · show "WHERE" ∉ (["DELETE FROM", q] : List String)
        simp only [List.mem_cons, List.not_mem_nil, or_false, not_or]
        have hqe : q = escapeIdentifier table := (identifier_ok_elim hq).2
        obtain ⟨r, hr⟩ := escape_starts_backtick table
        refine ⟨by decide, ?_⟩
        subst hqe
        exact fun hc => (backtick_ne_WHERE hr) hc.symm
  · intro h
    have hid : identifier table = .ok (escapeIdentifier table) := by
      rw [identifier, validateIdentifier, if_pos h]
    rw [buildDelete, SQLBuilder.deleteFrom, hid]
    rfl

/-- Witness for C9 at `users` with one data column. -/
theorem empty_where_spec_witness :
    (buildUpdate "users" [("name", JSValue.vStr "John")] [] =
      .ok (SQLBuilder.build
        { parts := ["UPDATE", "`users`", "SET", "`name` = \x7bparam0:String\x7d"],
          parameters := [.vStr "John"], paramCounter := 1 }) ∧
     "WHERE" ∉ (SQLBuilder.mk ["UPDATE", "`users`", "SET", "`name` = \x7bparam0:String\x7d"]
        [JSValue.vStr "John"] 1).parts ∧
     (SQLBuilder.mk ["UPDATE", "`users`", "SET", "`name` = \x7bparam0:String\x7d"]
        [JSValue.vStr "John"] 1).parameters =
       [("name", JSValue.vStr "John")].map (fun p => convertParamValue p.2)) ∧
    buildDelete "users" [] = .ok ("DELETE FROM " ++ escapeIdentifier "users", []) :=
  ⟨(empty_where_spec "users" none none none none [("name", JSValue.vStr "John")]).2.1
      (SQLBuilder.mk ["UPDATE", "`users`"] [] 0)
      (SQLBuilder.mk ["UPDATE", "`users`", "SET", "`name` = \x7bparam0:String\x7d"]
        [JSValue.vStr "John"] 1) rfl rfl,
   (empty_where_spec "users" none none none none []).2.2.2 (by decide)⟩

end ClickORM
